import Mathlib

/-!
Verification of the conversation state machine and persistence contract of the
`golang-cli-chat` command-line chat client (`main.go`).

Strings are modelled as lists of Unicode scalar values (`Str := List Char`).
Wall-clock time, the completion gateway, the image gateway and the file system
are external collaborators; they are modelled as oracles supplied in a `World`
structure and consumed in call order, so every run of the session loop is a
pure function of the input lines and the world.
-/

namespace GoChat

/-- Go strings, modelled as sequences of Unicode scalar values. -/
abbrev Str := List Char

/-- Coerce a Lean string literal to the `Str` model. -/
def str (s : String) : Str := s.data

/-- `pat` is a prefix of `s` (helper for the substring test). -/
def strStarts : Str → Str → Bool
  | _, [] => true
  | [], _ :: _ => false
  | c :: cs, p :: ps => c = p && strStarts cs ps

/-- `strings.Contains s pat`: `pat` occurs as a contiguous substring of `s`. -/
def strHas : Str → Str → Bool
  | [], pat => pat.isEmpty
  | c :: cs, pat => strStarts (c :: cs) pat || strHas cs pat

/-- `strings.ToLower`, restricted to the ASCII case mapping (identity on all
other characters).  Go applies full Unicode simple case mapping; the two agree
on the ASCII range, which covers the fixed trigger keyword `"visualiser"` and
every letter case of it that the program's check can be sensitive to. -/
def lowerChar (c : Char) : Char :=
  if 65 ≤ c.toNat ∧ c.toNat ≤ 90 then Char.ofNat (c.toNat + 32) else c

/-- `strings.ToLower` on a whole string. -/
def strToLower (s : Str) : Str := s.map lowerChar

/-- The image-trigger test used both at line 88 and inside `callOpenAI`
(line 182): `strings.Contains(strings.ToLower(s), "visualiser")`. -/
def isTrigger (s : Str) : Bool := strHas (strToLower s) (str "visualiser")

/-- `unicode.IsSpace`: the White_Space code points trimmed by
`strings.TrimSpace`. -/
def isGoSpace (c : Char) : Bool :=
  c = '\t' || c = '\n' || c.toNat = 0x0B || c.toNat = 0x0C || c = '\r' || c = ' ' ||
  c.toNat = 0x85 || c.toNat = 0xA0 || c.toNat = 0x1680 ||
  (0x2000 ≤ c.toNat && c.toNat ≤ 0x200A) ||
  c.toNat = 0x2028 || c.toNat = 0x2029 || c.toNat = 0x202F ||
  c.toNat = 0x205F || c.toNat = 0x3000

/-- `strings.TrimSpace`: drop leading and trailing White_Space characters. -/
def trimSpace (s : Str) : Str :=
  ((s.dropWhile isGoSpace).reverse.dropWhile isGoSpace).reverse

/-- `fmt.Sprintf "%d"` on an integer. -/
def intToStr (n : Int) : Str := (toString n).data

/-- `filepath.Join` on two nonempty clean relative components (the only way
the program uses it). -/
def filepathJoin (a b : Str) : Str := a ++ ('/' :: b)

/-! ## Data model (`Conversation`, `Message`, constants) -/

/-- One turn of the conversation (struct `Message` in `main.go`). -/
structure Message where
  Role : Str
  Content : Str
  Timestamp : Str
deriving DecidableEq, Repr

/-- One chat session (struct `Conversation` in `main.go`; the `XMLName`
field carries no data and is omitted). -/
structure Conversation where
  ID : Str
  CreatedAt : Str
  Messages : List Message
deriving DecidableEq, Repr

/-- Constant `chatsDir`. -/
def chatsDir : Str := str "chats"

/-- Constant `imagesDir`. -/
def imagesDir : Str := str "images"

/-- Constant `systemPrompt`. -/
def systemPrompt : Str :=
  str "Du er en frekk, ubehøvlet, avdanka journalist som svarer med en syrlig tone. Du skal ikke være hjelpsm eller høflig selv om jeg ber om det."

/-- Constant `defaultModel`. -/
def defaultModel : Str := str "gpt-3.5-turbo"

/-- Method `addMessage`: append one message; the `time.Now()` the Go method
takes for the timestamp is passed in as `ts` by the clock oracle. -/
def Conversation.addMessage (c : Conversation) (role content ts : Str) : Conversation :=
  { c with Messages := c.Messages ++ [{ Role := role, Content := content, Timestamp := ts }] }

/-- Method `getFilePath`: `filepath.Join(chatsDir, c.ID+".xml")`. -/
def Conversation.getFilePath (c : Conversation) : Str :=
  filepathJoin chatsDir (c.ID ++ str ".xml")

/-! ## Completion gateway (`callOpenAI`) -/

/-- The role-tagged parameter union sent to the completion endpoint
(`openai.ChatCompletionMessageParamUnion`, restricted to the three
constructors the program uses). -/
inductive ChatParam where
  | system (content : Str)
  | user (content : Str)
  | assistant (content : Str)
deriving DecidableEq, Repr

/-- Body of the `for … range conv.Messages` loop in `callOpenAI`: skip a
`user` message whose lower-cased content contains `"visualiser"`, otherwise
dispatch on the role (unknown roles fall through the `switch` and are
dropped). -/
def toParam (m : Message) : Option ChatParam :=
  if m.Role = str "user" ∧ isTrigger m.Content = true then
    none
  else if m.Role = str "system" then some (ChatParam.system m.Content)
  else if m.Role = str "user" then some (ChatParam.user m.Content)
  else if m.Role = str "assistant" then some (ChatParam.assistant m.Content)
  else none

/-- The message sequence `callOpenAI` accumulates and hands to
`client.Chat.Completions.New` (the completion context). -/
def buildCompletionContext (c : Conversation) : List ChatParam :=
  c.Messages.filterMap toParam

/-- The two failure conditions of `callOpenAI`: a wrapped transport/API error
(`"failed to create completion: %w"`) and the empty-choices condition
(`"no response from OpenAI"`). -/
inductive CallError where
  | transport (e : Str)
  | noChoices
deriving DecidableEq, Repr

/-- The error text `callOpenAI` surfaces for each failure condition. -/
def CallError.message : CallError → Str
  | CallError.transport e => str "failed to create completion: " ++ e
  | CallError.noChoices => str "no response from OpenAI"

/-- `callOpenAI`, with the remote call modelled by the oracle `gw` mapping the
sent context to either a transport error or the returned list of choice
contents.  The function receives the conversation by pointer and never writes
through it, so the state it returns is threaded unchanged. -/
def callOpenAI (gw : List ChatParam → Except Str (List Str)) (conv : Conversation) :
    Conversation × Except CallError Str :=
  let messages := buildCompletionContext conv
  match gw messages with
  | Except.error e => (conv, Except.error (CallError.transport e))
  | Except.ok choices =>
    match choices with
    | [] => (conv, Except.error CallError.noChoices)
    | choice :: _ => (conv, Except.ok choice)

/-! ## Image gateway (`generateImage`) -/

/-- Oracle outcomes for one `generateImage` call: the `client.Images.Generate`
response (error, or the list of base64 payload strings in `resp.Data`), the
outcome of `base64.StdEncoding.DecodeString` on the first payload, and the
outcome of `os.WriteFile`. -/
structure ImgStep where
  resp : Except Str (List Str)
  dec : Except Str (List Nat)
  write : Except Str Unit
deriving Repr

/-- Oracles for everything outside the program: the wall clock (tick-indexed
`time.Now().Unix()` and `time.Now().Format(time.RFC3339)` values), the
completion gateway (indexed by call number), the image-call outcomes (indexed
by call number) and the success of each `save` attempt (indexed by call
number). -/
structure World where
  unixOf : Nat → Int
  rfcOf : Nat → Str
  compGw : Nat → List ChatParam → Except Str (List Str)
  imgAt : Nat → ImgStep
  saveAt : Nat → Bool

/-- `generateImage`: on gateway error, empty data, decode failure or write
failure return the corresponding wrapped error; on success return the path
`images/img_<unix-seconds>.png`.  `time.Now().Unix()` is consulted only once
the payload has been decoded, so the clock tick advances exactly on that
path; the function returns the new tick. -/
def generateImage (step : ImgStep) (w : World) (tick : Nat) : Except Str Str × Nat :=
  match step.resp with
  | Except.error e => (Except.error (str "failed to create image: " ++ e), tick)
  | Except.ok [] => (Except.error (str "no image data in response"), tick)
  | Except.ok (_ :: _) =>
    match step.dec with
    | Except.error e => (Except.error (str "failed to decode base64 image: " ++ e), tick)
    | Except.ok _ =>
      let fileName := str "img_" ++ intToStr (w.unixOf tick) ++ str ".png"
      let filePath := filepathJoin imagesDir fileName
      match step.write with
      | Except.error e => (Except.error (str "failed to write image to file: " ++ e), tick + 1)
      | Except.ok _ => (Except.ok filePath, tick + 1)

/-! ## The session loop (`main`) -/

/-- Observable events of one run of the session loop, in order: a message
appended to the in-memory list, an attempted `conv.save()` (with its outcome),
a call to the completion gateway, a call to the image gateway. -/
inductive Event where
  | append (m : Message)
  | saveAttempt (ok : Bool)
  | completionCall
  | imageCall
deriving DecidableEq, Repr

/-- State threaded through the session loop: the in-memory conversation, the
next clock tick, the per-oracle call counters, the last successfully persisted
transcript (`disk`), and the event trace so far. -/
structure LoopState where
  conv : Conversation
  tick : Nat
  compIdx : Nat
  imgIdx : Nat
  saveIdx : Nat
  disk : Option Conversation
  trace : List Event
deriving Repr

/-- One `conv.save()` attempt: on success the file is overwritten with the
full current transcript (`disk := conv`); on failure the loop only prints a
warning (the partially truncated file a failed `os.Create`/`Encode` may leave
behind is not modelled, `disk` is left as-is). -/
def doSave (w : World) (st : LoopState) : LoopState × Bool :=
  let ok := w.saveAt st.saveIdx
  ({ st with
      saveIdx := st.saveIdx + 1
      disk := if ok then some st.conv else st.disk
      trace := st.trace ++ [Event.saveAttempt ok] }, ok)

/-- One `conv.addMessage(role, content)` call inside the loop: the message is
stamped with the current clock tick and the tick advances. -/
def doAppend (w : World) (st : LoopState) (role content : Str) : LoopState :=
  let ts := w.rfcOf st.tick
  { st with
      conv := st.conv.addMessage role content ts
      tick := st.tick + 1
      trace := st.trace ++ [Event.append { Role := role, Content := content, Timestamp := ts }] }

/-- The body of one normal turn of the `for` loop (lines 86–120): a
non-empty, non-exit input line.  Append the user message; on a trigger line
call the image gateway (no save first!) and — only on success — append the
assistant message and save once; on a normal line save, call the completion
gateway and — only on success — append the assistant message and save
again. -/
def stepTurn (w : World) (line : Str) (st : LoopState) : LoopState :=
  let userInput := trimSpace line
  let st1 := doAppend w st (str "user") userInput
  if isTrigger userInput then
    let step := w.imgAt st1.imgIdx
    let st2 := { st1 with imgIdx := st1.imgIdx + 1, trace := st1.trace ++ [Event.imageCall] }
    let g := generateImage step w st2.tick
    let st2b := { st2 with tick := g.2 }
    match g.1 with
    | Except.error _ => st2b
    | Except.ok path =>
      (doSave w (doAppend w st2b (str "assistant") (str "Generated image: " ++ path))).1
  else
    let st2 := (doSave w st1).1
    let co := callOpenAI (w.compGw st2.compIdx) st2.conv
    let st3 := { st2 with
        conv := co.1
        compIdx := st2.compIdx + 1
        trace := st2.trace ++ [Event.completionCall] }
    match co.2 with
    | Except.error _ => st3
    | Except.ok resp => (doSave w (doAppend w st3 (str "assistant") resp)).1

/-- The `for` loop of `main` (lines 70–121) followed by the final save of
line 127, as a function of the remaining input lines.  Input ends either at
end-of-stream (`scanner.Scan()` false: the empty list) or at an `exit`/`quit`
line; both paths fall through to the final save. -/
def runLoop (w : World) : List Str → LoopState → LoopState
  | [], st => (doSave w st).1
  | line :: rest, st =>
    let userInput := trimSpace line
    if userInput = [] then
      runLoop w rest st
    else if userInput = str "exit" ∨ userInput = str "quit" then
      (doSave w st).1
    else
      runLoop w rest (stepTurn w line st)

/-- `newConversation`: `time.Now()` is sampled once (tick 0) for the id and
creation time, then `addMessage("system", systemPrompt)` samples it again
(tick 1). -/
def newConversation (w : World) : Conversation :=
  let c : Conversation :=
    { ID := str "chat_" ++ intToStr (w.unixOf 0), CreatedAt := w.rfcOf 0, Messages := [] }
  c.addMessage (str "system") systemPrompt (w.rfcOf 1)

/-- The loop state as `main` enters the `for` loop: a fresh conversation (two
clock ticks consumed), nothing yet on disk, no events. -/
def initState (w : World) : LoopState :=
  { conv := newConversation w
    tick := 2
    compIdx := 0
    imgIdx := 0
    saveIdx := 0
    disk := none
    trace := [] }

/-- A whole run of `main`'s interactive part on the given input lines. -/
def runMain (w : World) (lines : List Str) : LoopState :=
  runLoop w lines (initState w)

/-! ## The persisted XML format (`save` / `encoding/xml`)

`conv.save()` writes `xml.NewEncoder(file)` with `Indent("", "  ")` applied to
the `Conversation` struct.  The encoder escapes text and attribute values with
`escapeText`: the five markup characters plus tab, newline and carriage return
become character references, and any rune outside the XML character range is
replaced by U+FFFD.  The decoder (`xml.Unmarshal`) resolves character
references and rewrites raw `\r\n`/`\r` to `\n`. -/

/-- `isInCharacterRange` from `encoding/xml`: the XML 1.0 character range. -/
def validXMLChar (c : Char) : Bool :=
  c.toNat = 0x09 || c.toNat = 0x0A || c.toNat = 0x0D ||
  (0x20 ≤ c.toNat && c.toNat ≤ 0xD7FF) ||
  (0xE000 ≤ c.toNat && c.toNat ≤ 0xFFFD) ||
  (0x10000 ≤ c.toNat && c.toNat ≤ 0x10FFFF)

/-- The chunk `escapeText` emits for one rune (on the `Marshal` path newlines
are escaped in both character data and attribute values). -/
def escChar (c : Char) : Str :=
  if c = '"' then str "&#34;"
  else if c = '\'' then str "&#39;"
  else if c = '&' then str "&amp;"
  else if c = '<' then str "&lt;"
  else if c = '>' then str "&gt;"
  else if c = '\t' then str "&#x9;"
  else if c = '\n' then str "&#xA;"
  else if c = '\r' then str "&#xD;"
  else if validXMLChar c then [c]
  else [Char.ofNat 0xFFFD]

/-- `escapeText` over a whole string. -/
def escXML (s : Str) : Str := s.flatMap escChar

/-- Strip an expected literal from the front of the input. -/
def expectLit : Str → Str → Option Str
  | [], s => some s
  | _ :: _, [] => none
  | l :: ls, c :: cs => if c = l then expectLit ls cs else none

/-- Split the input at the first occurrence of `stop` (the delimiter is
consumed): how a parser reads an attribute value up to `"` or character data
up to `<`. -/
def readUntil (stop : Char) : Str → Option (Str × Str)
  | [] => none
  | c :: cs =>
    if c = stop then some ([], cs)
    else
      match readUntil stop cs with
      | some (a, b) => some (c :: a, b)
      | none => none

/-- Value of a decimal digit. -/
def digitVal (c : Char) : Option Nat :=
  if 48 ≤ c.toNat ∧ c.toNat ≤ 57 then some (c.toNat - 48) else none

/-- Value of a hexadecimal digit. -/
def hexVal (c : Char) : Option Nat :=
  if 48 ≤ c.toNat ∧ c.toNat ≤ 57 then some (c.toNat - 48)
  else if 97 ≤ c.toNat ∧ c.toNat ≤ 102 then some (c.toNat - 87)
  else if 65 ≤ c.toNat ∧ c.toNat ≤ 70 then some (c.toNat - 55)
  else none

/-- A numeric character reference must denote a Unicode scalar value. -/
def charOfScalar (n : Nat) : Option Char :=
  if n < 0xD800 ∨ (0xE000 ≤ n ∧ n ≤ 0x10FFFF) then some (Char.ofNat n) else none

/-- Read the remaining digits of a numeric character reference up to `;`. -/
def numEnd (base : Nat) (dv : Char → Option Nat) : Str → Nat → Option (Char × Str)
  | [], _ => none
  | c :: rest, acc =>
    if c = ';' then (charOfScalar acc).map (fun ch => (ch, rest))
    else
      match dv c with
      | some d => numEnd base dv rest (acc * base + d)
      | none => none

/-- Resolve one character reference after a `&`: the five named XML entities
and decimal/hexadecimal numeric references (the decoder's entity handling). -/
def entity (s : Str) : Option (Char × Str) :=
  ((expectLit (str "lt;") s).map (fun r => ('<', r))) <|>
  ((expectLit (str "gt;") s).map (fun r => ('>', r))) <|>
  ((expectLit (str "amp;") s).map (fun r => ('&', r))) <|>
  ((expectLit (str "apos;") s).map (fun r => ('\'', r))) <|>
  ((expectLit (str "quot;") s).map (fun r => ('"', r))) <|>
  (match s with
   | '#' :: 'x' :: c :: rest =>
     (match hexVal c with
      | some d => numEnd 16 hexVal rest d
      | none => none)
   | '#' :: c :: rest =>
     (match digitVal c with
      | some d => numEnd 10 digitVal rest d
      | none => none)
   | _ => none)

/-- The decoder's text handling, fuelled for termination: resolve character
references and rewrite raw `\r\n`/`\r` to `\n` (a reference such as `&#xD;`
is exempt from the rewrite).  `fuel` bounds the number of produced
characters; each step consumes at least one input character, so the input
length is always enough fuel. -/
def unescTextF : Nat → Str → Option Str
  | _, [] => some []
  | 0, _ :: _ => none
  | fuel + 1, c :: rest =>
    if c = '&' then
      match entity rest with
      | some (ch, r) => (unescTextF fuel r).map (fun t => ch :: t)
      | none => none
    else if c = '\r' then
      (unescTextF fuel (if rest.head? = some '\n' then rest.tail else rest)).map
        (fun t => '\n' :: t)
    else
      (unescTextF fuel rest).map (fun t => c :: t)

/-- The decoder's text handling. -/
def unescText (s : Str) : Option Str := unescTextF s.length s

/-! The exact byte shape of one `save`: the encoder pretty-prints with
`Indent("", "  ")`, so the document is

```
<conversation id="ID" created_at="CA">
  <messages>
    <message role="R" timestamp="T">
      <content>C</content>
    </message>
    …
  </messages>
</conversation>
```

with every `ID`/`CA`/`R`/`T`/`C` escaped, and an empty message list emitting
`<conversation id="ID" created_at="CA"></conversation>`.  The fixed literal
pieces are named, and the `"`/`<` delimiters that terminate escaped runs are
kept explicit, so the grammar of the rendered document is visible. -/

/-- Literal `<conversation id="`. -/
def litConvOpen : Str := str "<conversation id=\""

/-- Literal ` created_at="` (follows the closing quote of the id). -/
def litCreated : Str := str " created_at=\""

/-- Literal `></conversation>` (follows the closing quote, empty list case). -/
def litConvCloseEmpty : Str := str "></conversation>"

/-- Literal opening the message list (follows the closing quote). -/
def litMsgsOpen : Str := str ">\n  <messages>\n"

/-- Literal closing the message list and the document. -/
def litMsgsClose : Str := str "  </messages>\n</conversation>"

/-- Literal `    <message role="`. -/
def litMsgOpen : Str := str "    <message role=\""

/-- Literal ` timestamp="` (follows the closing quote of the role). -/
def litTsLit : Str := str " timestamp=\""

/-- Literal between the timestamp's closing quote and the content. -/
def litCtLit : Str := str ">\n      <content>"

/-- Literal `/content>…` closing one message (follows the `<` ending the
content). -/
def litMsgClose : Str := str "/content>\n    </message>\n"

/-- The rendered form of one `<message>` element. -/
def renderMsg (m : Message) : Str :=
  litMsgOpen ++ escXML m.Role ++ '"' ::
    (litTsLit ++ escXML m.Timestamp ++ '"' ::
      (litCtLit ++ escXML m.Content ++ '<' :: litMsgClose))

/-- The rendered form of the message list. -/
def renderMsgs (ms : List Message) : Str := ms.flatMap renderMsg

/-- The full document `conv.save()` writes. -/
def renderConversation (c : Conversation) : Str :=
  litConvOpen ++ escXML c.ID ++ '"' ::
    (litCreated ++ escXML c.CreatedAt ++ '"' ::
      (if c.Messages = [] then litConvCloseEmpty
       else litMsgsOpen ++ renderMsgs c.Messages ++ litMsgsClose))

/-- Parse one `<message>` element of the rendered document. -/
def parseMsg (s : Str) : Option (Message × Str) := do
  let s ← expectLit litMsgOpen s
  let (roleE, s) ← readUntil '"' s
  let s ← expectLit litTsLit s
  let (tsE, s) ← readUntil '"' s
  let s ← expectLit litCtLit s
  let (ctE, s) ← readUntil '<' s
  let s ← expectLit litMsgClose s
  let role ← unescText roleE
  let ts ← unescText tsE
  let ct ← unescText ctE
  some ({ Role := role, Content := ct, Timestamp := ts }, s)

/-- Parse the message list: `<message>` elements until the closing literal
(fuelled; one unit of fuel per message). -/
def parseMsgsF : Nat → Str → Option (List Message × Str)
  | 0, _ => none
  | fuel + 1, s =>
    (parseMsg s).elim
      ((expectLit litMsgsClose s).map (fun r => ([], r)))
      (fun ms2 => (parseMsgsF fuel ms2.2).map (fun msr => (ms2.1 :: msr.1, msr.2)))

/-- Re-parse a rendered conversation document (what `xml.Unmarshal` recovers
from the saved file). -/
def parseConversation (s : Str) : Option Conversation := do
  let s1 ← expectLit litConvOpen s
  let (idE, s2) ← readUntil '"' s1
  let s3 ← expectLit litCreated s2
  let (caE, s4) ← readUntil '"' s3
  let cid ← unescText idE
  let cca ← unescText caE
  (expectLit litConvCloseEmpty s4).elim
    ((expectLit litMsgsOpen s4).bind (fun s5 =>
      (parseMsgsF (s5.length + 1) s5).bind (fun msr =>
        if msr.2 = [] then some { ID := cid, CreatedAt := cca, Messages := msr.1 } else none)))
    (fun r => if r = [] then some { ID := cid, CreatedAt := cca, Messages := [] } else none)

/-- All characters of a string are in the XML character range. -/
def validStr (s : Str) : Bool := s.all validXMLChar

/-- All strings of a conversation are representable in the XML output. -/
def validConv (c : Conversation) : Bool :=
  validStr c.ID && validStr c.CreatedAt &&
    c.Messages.all (fun m => validStr m.Role && validStr m.Content && validStr m.Timestamp)

/-! ## Round-trip lemmas for the XML model -/

lemma expectLit_append (l s : Str) : expectLit l (l ++ s) = some s := by
  induction l with
  | nil => rfl
  | cons c cs ih => simp [expectLit, ih]

lemma readUntil_append (stop : Char) (a b : Str) (h : stop ∉ a) :
    readUntil stop (a ++ stop :: b) = some (a, b) := by
  induction a with
  | nil => simp [readUntil]
  | cons c cs ih =>
    have hc : c ≠ stop := by
      intro hh
      exact h (hh ▸ List.mem_cons_self c cs)
    have hcs : stop ∉ cs := fun hm => h (List.mem_cons_of_mem c hm)
    simp [readUntil, hc, ih hcs]

lemma escXML_nil : escXML [] = [] := rfl

lemma escXML_cons (c : Char) (cs : Str) : escXML (c :: cs) = escChar c ++ escXML cs := rfl

lemma escChar_len (c : Char) : 1 ≤ (escChar c).length := by
  unfold escChar
  split_ifs <;> simp [str]

lemma escXML_len (s : Str) : s.length ≤ (escXML s).length := by
  induction s with
  | nil => simp [escXML_nil]
  | cons c cs ih =>
    rw [escXML_cons, List.length_append, List.length_cons]
    have := escChar_len c
    omega

lemma quot_not_mem_escChar (c : Char) : ('"' : Char) ∉ escChar c := by
  unfold escChar
  split_ifs with h1 h2 h3 h4 h5 h6 h7 h8 h9 <;>
    first
      | decide
      | (intro hm
         rw [List.mem_singleton] at hm
         exact h1 hm.symm)

lemma lt_not_mem_escChar (c : Char) : ('<' : Char) ∉ escChar c := by
  unfold escChar
  split_ifs with h1 h2 h3 h4 h5 h6 h7 h8 h9 <;>
    first
      | decide
      | (intro hm
         rw [List.mem_singleton] at hm
         exact h4 hm.symm)

lemma quot_not_mem_escXML (s : Str) : ('"' : Char) ∉ escXML s := by
  simp only [escXML, List.mem_flatMap, not_exists]
  intro a
  exact fun hc => absurd hc.2 (quot_not_mem_escChar a)

lemma lt_not_mem_escXML (s : Str) : ('<' : Char) ∉ escXML s := by
  simp only [escXML, List.mem_flatMap, not_exists]
  intro a
  exact fun hc => absurd hc.2 (lt_not_mem_escChar a)

lemma unesc_chunk (c : Char) (h : validXMLChar c = true) (f : Nat) (t : Str) :
    unescTextF (f + 1) (escChar c ++ t) = (unescTextF f t).map (fun l => c :: l) := by
  by_cases h1 : c = '"'
  · subst h1; rfl
  by_cases h2 : c = '\''
  · subst h2; rfl
  by_cases h3 : c = '&'
  · subst h3; rfl
  by_cases h4 : c = '<'
  · subst h4; rfl
  by_cases h5 : c = '>'
  · subst h5; rfl
  by_cases h6 : c = '\t'
  · subst h6; rfl
  by_cases h7 : c = '\n'
  · subst h7; rfl
  by_cases h8 : c = '\r'
  · subst h8; rfl
  have hesc : escChar c = [c] := by
    unfold escChar
    simp [h1, h2, h3, h4, h5, h6, h7, h8, h]
  rw [hesc]
  simp only [List.cons_append, List.nil_append]
  rw [unescTextF, if_neg h3, if_neg h8]

lemma unesc_esc_aux (s : Str) (h : ∀ c ∈ s, validXMLChar c = true) (f : Nat) (t : Str) :
    unescTextF (s.length + f) (escXML s ++ t) = (unescTextF f t).map (fun l => s ++ l) := by
  induction s with
  | nil =>
    simp [escXML_nil]
  | cons c cs ih =>
    have hc : validXMLChar c = true := h c (List.mem_cons_self c cs)
    have hcs : ∀ x ∈ cs, validXMLChar x = true := fun x hx => h x (List.mem_cons_of_mem c hx)
    have hlen : (c :: cs : Str).length + f = (cs.length + f) + 1 := by
      rw [List.length_cons]
      omega
    rw [escXML_cons, List.append_assoc, hlen]
    rw [unesc_chunk c hc (cs.length + f) (escXML cs ++ t)]
    rw [ih hcs]
    cases unescTextF f t <;> simp

lemma unesc_esc (s : Str) (h : ∀ c ∈ s, validXMLChar c = true) :
    unescText (escXML s) = some s := by
  have hlen := escXML_len s
  have heq : (escXML s).length = s.length + ((escXML s).length - s.length) := by omega
  have := unesc_esc_aux s h ((escXML s).length - s.length) []
  rw [List.append_nil] at this
  rw [unescText, heq, this]
  have : unescTextF ((escXML s).length - s.length) ([] : Str) = some [] := by
    rw [unescTextF]
  rw [this]
  simp

lemma parseMsg_render (m : Message) (r : Str)
    (h1 : validStr m.Role = true) (h2 : validStr m.Content = true)
    (h3 : validStr m.Timestamp = true) :
    parseMsg (renderMsg m ++ r) = some (m, r) := by
  have hr : ∀ c ∈ m.Role, validXMLChar c = true := by
    intro c hc; exact List.all_eq_true.mp h1 c hc
  have hct : ∀ c ∈ m.Content, validXMLChar c = true := by
    intro c hc; exact List.all_eq_true.mp h2 c hc
  have hts : ∀ c ∈ m.Timestamp, validXMLChar c = true := by
    intro c hc; exact List.all_eq_true.mp h3 c hc
  simp only [renderMsg, parseMsg, List.append_assoc, List.cons_append]
  rw [expectLit_append]
  simp only [Option.bind_eq_bind, Option.some_bind]
  rw [readUntil_append '"' _ _ (quot_not_mem_escXML m.Role)]
  simp only [Option.some_bind]
  rw [expectLit_append]
  simp only [Option.some_bind]
  rw [readUntil_append '"' _ _ (quot_not_mem_escXML m.Timestamp)]
  simp only [Option.some_bind]
  rw [expectLit_append]
  simp only [Option.some_bind]
  rw [readUntil_append '<' _ _ (lt_not_mem_escXML m.Content)]
  simp only [Option.some_bind]
  rw [expectLit_append]
  simp only [Option.some_bind]
  rw [unesc_esc _ hr, unesc_esc _ hts, unesc_esc _ hct]
  simp

lemma parseMsg_close (r : Str) : parseMsg (litMsgsClose ++ r) = none := rfl

lemma renderMsgs_nil : renderMsgs [] = [] := rfl

lemma renderMsgs_cons (m : Message) (ms : List Message) :
    renderMsgs (m :: ms) = renderMsg m ++ renderMsgs ms := rfl

lemma renderMsg_len (m : Message) : 1 ≤ (renderMsg m).length := by
  simp [renderMsg, litMsgOpen, str]

lemma renderMsgs_len (ms : List Message) : ms.length ≤ (renderMsgs ms).length := by
  induction ms with
  | nil => simp [renderMsgs_nil]
  | cons m ms ih =>
    rw [renderMsgs_cons, List.length_append, List.length_cons]
    have := renderMsg_len m
    omega

lemma parseMsgsF_render (ms : List Message)
    (h : ∀ m ∈ ms, validStr m.Role = true ∧ validStr m.Content = true ∧ validStr m.Timestamp = true) :
    ∀ (fuel : Nat), ms.length + 1 ≤ fuel → ∀ (r : Str),
      parseMsgsF fuel (renderMsgs ms ++ (litMsgsClose ++ r)) = some (ms, r) := by
  induction ms with
  | nil =>
    intro fuel hf r
    obtain ⟨f, rfl⟩ : ∃ f, fuel = f + 1 := ⟨fuel - 1, by omega⟩
    rw [renderMsgs_nil, List.nil_append]
    rw [parseMsgsF]
    rw [parseMsg_close]
    rw [expectLit_append]
    rfl
  | cons m ms ih =>
    intro fuel hf r
    obtain ⟨f, rfl⟩ : ∃ f, fuel = f + 1 := ⟨fuel - 1, by omega⟩
    have hm := h m (List.mem_cons_self m ms)
    have hms : ∀ x ∈ ms, validStr x.Role = true ∧ validStr x.Content = true ∧ validStr x.Timestamp = true :=
      fun x hx => h x (List.mem_cons_of_mem m hx)
    rw [renderMsgs_cons, List.append_assoc]
    rw [parseMsgsF]
    rw [parseMsg_render m _ hm.1 hm.2.1 hm.2.2]
    have hf2 : ms.length + 1 ≤ f := by
      simp only [List.length_cons] at hf
      omega
    simp only [Option.elim_some]
    rw [ih hms f hf2 r]
    rfl

/-- The non-empty branch of the document cannot be mistaken for the empty
branch: the characters after the attributes diverge at the second position. -/
lemma convCloseEmpty_vs_msgs (x : Str) :
    expectLit litConvCloseEmpty (litMsgsOpen ++ x) = none := rfl

/-! ## Loop-level notions used by several claims -/

/-- `a` is an initial segment of `b` (append-only evolution of the message
list). -/
def initialSegment (a b : List Message) : Prop := ∃ t, a ++ t = b

/-- The conversations the program can actually hold in memory: created by
`newConversation` (a system message over a fresh id), then extended only by
`addMessage("user", …)` and `addMessage("assistant", …)` from the loop. -/
inductive Reachable : Conversation → Prop
  | init (idTime : Int) (created ts : Str) :
      Reachable ((Conversation.mk (str "chat_" ++ intToStr idTime) created []).addMessage
        (str "system") systemPrompt ts)
  | user (c : Conversation) (content ts : Str) :
      Reachable c → Reachable (c.addMessage (str "user") content ts)
  | assistant (c : Conversation) (content ts : Str) :
      Reachable c → Reachable (c.addMessage (str "assistant") content ts)

/-- The event block one normal turn of the loop can emit, indexed by the
trimmed input line: a failed completion turn, a successful completion turn,
a failed image turn, and a successful image turn. -/
inductive TurnBlock : Str → List Event → Prop
  | compFail (u ts : Str) (ok : Bool) (h : isTrigger u = false) :
      TurnBlock u
        [Event.append { Role := str "user", Content := u, Timestamp := ts },
         Event.saveAttempt ok, Event.completionCall]
  | compOk (u ts : Str) (ok1 : Bool) (r ts2 : Str) (ok2 : Bool) (h : isTrigger u = false) :
      TurnBlock u
        [Event.append { Role := str "user", Content := u, Timestamp := ts },
         Event.saveAttempt ok1, Event.completionCall,
         Event.append { Role := str "assistant", Content := r, Timestamp := ts2 },
         Event.saveAttempt ok2]
  | imgFail (u ts : Str) (h : isTrigger u = true) :
      TurnBlock u
        [Event.append { Role := str "user", Content := u, Timestamp := ts },
         Event.imageCall]
  | imgOk (u ts p ts2 : Str) (ok : Bool) (h : isTrigger u = true) :
      TurnBlock u
        [Event.append { Role := str "user", Content := u, Timestamp := ts },
         Event.imageCall,
         Event.append { Role := str "assistant",
                        Content := str "Generated image: " ++ p, Timestamp := ts2 },
         Event.saveAttempt ok]

/-- The trace of a whole run: a sequence of turn blocks closed by the final
save of line 127. -/
inductive Blocks : List Event → Prop
  | final (ok : Bool) : Blocks [Event.saveAttempt ok]
  | turn (u : Str) (d rest : List Event) :
      TurnBlock u d → Blocks rest → Blocks (d ++ rest)

/-- The message delta produced by a run of successful non-trigger turns:
one user/assistant pair per input, in input order. -/
inductive AltTurns : List Str → List Message → Prop
  | nil : AltTurns [] []
  | cons (u ts r ts2 : Str) (us : List Str) (d : List Message) :
      AltTurns us d →
      AltTurns (u :: us)
        ({ Role := str "user", Content := u, Timestamp := ts } ::
         { Role := str "assistant", Content := r, Timestamp := ts2 } :: d)

lemma AltTurns.length_eq {us : List Str} {d : List Message} (h : AltTurns us d) :
    d.length = 2 * us.length := by
  induction h with
  | nil => rfl
  | cons u ts r ts2 us d _ ih =>
    simp only [List.length_cons, ih]
    ring

lemma expectLit_self_nil (l : Str) : expectLit l l = some [] := by
  nth_rewrite 2 [← List.append_nil l]
  rw [expectLit_append]

lemma roundTrip (c : Conversation) (h : validConv c = true) :
    parseConversation (renderConversation c) = some c := by
  obtain ⟨cid, cca, msgs⟩ := c
  simp only [validConv, Bool.and_eq_true, List.all_eq_true] at h
  obtain ⟨⟨hid, hca⟩, hmsgs⟩ := h
  have hidc : ∀ ch ∈ cid, validXMLChar ch = true := by
    simpa [validStr, List.all_eq_true] using hid
  have hcac : ∀ ch ∈ cca, validXMLChar ch = true := by
    simpa [validStr, List.all_eq_true] using hca
  by_cases hnil : msgs = ([] : List Message)
  · subst hnil
    have hrender : renderConversation ⟨cid, cca, []⟩ =
        litConvOpen ++ (escXML cid ++ '"' :: (litCreated ++ (escXML cca ++ '"' :: litConvCloseEmpty))) := by
      simp [renderConversation]
    rw [hrender]
    simp only [parseConversation, Option.bind_eq_bind]
    rw [expectLit_append]
    simp only [Option.some_bind]
    rw [readUntil_append '"' _ _ (quot_not_mem_escXML cid)]
    simp only [Option.some_bind]
    rw [expectLit_append]
    simp only [Option.some_bind]
    rw [readUntil_append '"' _ _ (quot_not_mem_escXML cca)]
    simp only [Option.some_bind]
    rw [unesc_esc _ hidc, unesc_esc _ hcac]
    simp only [Option.some_bind]
    rw [expectLit_self_nil]
    simp
  · have hrender : renderConversation ⟨cid, cca, msgs⟩ =
        litConvOpen ++ (escXML cid ++ '"' :: (litCreated ++ (escXML cca ++ '"' ::
          (litMsgsOpen ++ (renderMsgs msgs ++ litMsgsClose))))) := by
      simp [renderConversation, hnil]
    rw [hrender]
    simp only [parseConversation, Option.bind_eq_bind]
    rw [expectLit_append]
    simp only [Option.some_bind]
    rw [readUntil_append '"' _ _ (quot_not_mem_escXML cid)]
    simp only [Option.some_bind]
    rw [expectLit_append]
    simp only [Option.some_bind]
    rw [readUntil_append '"' _ _ (quot_not_mem_escXML cca)]
    simp only [Option.some_bind]
    rw [unesc_esc _ hidc, unesc_esc _ hcac]
    simp only [Option.some_bind]
    rw [convCloseEmpty_vs_msgs]
    rw [expectLit_append]
    simp only [Option.some_bind]
    have hmsgs' : ∀ m ∈ msgs, validStr m.Role = true ∧ validStr m.Content = true ∧ validStr m.Timestamp = true := by
      intro m hm
      have h3 := hmsgs m hm
      exact ⟨h3.1.1, h3.1.2, h3.2⟩
    have hfuel : msgs.length + 1 ≤ (renderMsgs msgs ++ litMsgsClose).length + 1 := by
      have h1 := renderMsgs_len msgs
      simp only [List.length_append]
      omega
    have hparse := parseMsgsF_render msgs hmsgs' ((renderMsgs msgs ++ litMsgsClose).length + 1) hfuel []
    rw [List.append_nil] at hparse
    rw [hparse]
    simp

/-! ## Behaviour of one turn of the session loop -/

lemma callOpenAI_fst (gw : List ChatParam → Except Str (List Str)) (c : Conversation) :
    (callOpenAI gw c).1 = c := by
  unfold callOpenAI
  cases hg : gw (buildCompletionContext c) with
  | error e => simp [hg]
  | ok choices => cases choices <;> simp [hg]

lemma stepTurn_trace (w : World) (line : Str) (st : LoopState) :
    ∃ d, (stepTurn w line st).trace = st.trace ++ d ∧ TurnBlock (trimSpace line) d := by
  unfold stepTurn
  by_cases htr : isTrigger (trimSpace line) = true
  · simp only [htr, if_true, doAppend, doSave]
    split
    · refine ⟨[Event.append ⟨str "user", trimSpace line, w.rfcOf st.tick⟩,
          Event.imageCall], by simp, ?_⟩
      exact TurnBlock.imgFail _ _ htr
    · next path heq =>
      refine ⟨[Event.append ⟨str "user", trimSpace line, w.rfcOf st.tick⟩,
          Event.imageCall,
          Event.append ⟨str "assistant", str "Generated image: " ++ path,
            w.rfcOf (generateImage (w.imgAt st.imgIdx) w (st.tick + 1)).2⟩,
          Event.saveAttempt (w.saveAt st.saveIdx)], by simp, ?_⟩
      exact TurnBlock.imgOk _ _ _ _ _ htr
  · rw [Bool.not_eq_true] at htr
    simp only [htr, Bool.false_eq_true, if_false, doAppend, doSave]
    split
    · refine ⟨[Event.append ⟨str "user", trimSpace line, w.rfcOf st.tick⟩,
          Event.saveAttempt (w.saveAt st.saveIdx), Event.completionCall],
          by simp, ?_⟩
      exact TurnBlock.compFail _ _ _ htr
    · next resp heq =>
      refine ⟨[Event.append ⟨str "user", trimSpace line, w.rfcOf st.tick⟩,
          Event.saveAttempt (w.saveAt st.saveIdx), Event.completionCall,
          Event.append ⟨str "assistant", resp, w.rfcOf (st.tick + 1)⟩,
          Event.saveAttempt (w.saveAt (st.saveIdx + 1))], by simp, ?_⟩
      exact TurnBlock.compOk _ _ _ _ _ _ htr

lemma runLoop_cons_empty (w : World) (line : Str) (rest : List Str) (st : LoopState)
    (h : trimSpace line = []) :
    runLoop w (line :: rest) st = runLoop w rest st := by
  rw [runLoop]
  simp [h]

lemma runLoop_cons_exit (w : World) (line : Str) (rest : List Str) (st : LoopState)
    (h : trimSpace line = str "exit" ∨ trimSpace line = str "quit") :
    runLoop w (line :: rest) st = (doSave w st).1 := by
  rw [runLoop]
  rcases h with h | h <;> simp [h, str]

lemma runLoop_cons_turn (w : World) (line : Str) (rest : List Str) (st : LoopState)
    (h0 : trimSpace line ≠ [])
    (h1 : ¬(trimSpace line = str "exit" ∨ trimSpace line = str "quit")) :
    runLoop w (line :: rest) st = runLoop w rest (stepTurn w line st) := by
  rw [runLoop]
  simp [h0, h1]

lemma runLoop_trace (w : World) (lines : List Str) : ∀ (st : LoopState),
    ∃ d, (runLoop w lines st).trace = st.trace ++ d ∧ Blocks d := by
  induction lines with
  | nil =>
    intro st
    exact ⟨_, by simp [runLoop, doSave], Blocks.final (w.saveAt st.saveIdx)⟩
  | cons line rest ih =>
    intro st
    by_cases h0 : trimSpace line = []
    · rw [runLoop_cons_empty w line rest st h0]
      exact ih st
    · by_cases h1 : trimSpace line = str "exit" ∨ trimSpace line = str "quit"
      · rw [runLoop_cons_exit w line rest st h1]
        exact ⟨_, by simp [doSave], Blocks.final (w.saveAt st.saveIdx)⟩
      · rw [runLoop_cons_turn w line rest st h0 h1]
        obtain ⟨d1, hd1, hb1⟩ := stepTurn_trace w line st
        obtain ⟨d2, hd2, hb2⟩ := ih (stepTurn w line st)
        refine ⟨d1 ++ d2, ?_, Blocks.turn _ _ _ hb1 hb2⟩
        rw [hd2, hd1, List.append_assoc]

/-! ## Reachability of conversations through the loop -/

lemma stepTurn_reach (w : World) (line : Str) (st : LoopState)
    (h : Reachable st.conv) : Reachable (stepTurn w line st).conv := by
  unfold stepTurn
  by_cases htr : isTrigger (trimSpace line) = true
  · simp only [htr, if_true, doAppend, doSave]
    split
    · exact Reachable.user _ _ _ h
    · exact Reachable.assistant _ _ _ (Reachable.user _ _ _ h)
  · rw [Bool.not_eq_true] at htr
    simp only [htr, Bool.false_eq_true, if_false, doAppend, doSave, callOpenAI_fst]
    split
    · exact Reachable.user _ _ _ h
    · exact Reachable.assistant _ _ _ (Reachable.user _ _ _ h)

/-- Everything possibly on disk is a previously reachable conversation. -/
def DiskOK (st : LoopState) : Prop := ∀ d, st.disk = some d → Reachable d

lemma stepTurn_disk (w : World) (line : Str) (st : LoopState)
    (h : Reachable st.conv) (hd : DiskOK st) : DiskOK (stepTurn w line st) := by
  unfold stepTurn
  by_cases htr : isTrigger (trimSpace line) = true
  · simp only [htr, if_true, doAppend, doSave]
    split
    · exact hd
    · intro d hdd
      simp only at hdd
      split at hdd
      · exact (Option.some.injEq _ _ ▸ hdd) ▸ Reachable.assistant _ _ _ (Reachable.user _ _ _ h)
      · exact hd d hdd
  · rw [Bool.not_eq_true] at htr
    simp only [htr, Bool.false_eq_true, if_false, doAppend, doSave, callOpenAI_fst]
    split
    · intro d hdd
      simp only at hdd
      split at hdd
      · exact (Option.some.injEq _ _ ▸ hdd) ▸ Reachable.user _ _ _ h
      · exact hd d hdd
    · intro d hdd
      simp only at hdd
      split at hdd
      · exact (Option.some.injEq _ _ ▸ hdd) ▸ Reachable.assistant _ _ _ (Reachable.user _ _ _ h)
      · split at hdd
        · exact (Option.some.injEq _ _ ▸ hdd) ▸ Reachable.user _ _ _ h
        · exact hd d hdd

lemma runLoop_reach (w : World) (lines : List Str) : ∀ (st : LoopState),
    Reachable st.conv → DiskOK st →
    Reachable (runLoop w lines st).conv ∧ DiskOK (runLoop w lines st) := by
  induction lines with
  | nil =>
    intro st h hd
    refine ⟨by simp [runLoop, doSave, h], ?_⟩
    intro d hdd
    simp only [runLoop, doSave] at hdd
    split at hdd
    · exact (Option.some.injEq _ _ ▸ hdd) ▸ h
    · exact hd d hdd
  | cons line rest ih =>
    intro st h hd
    by_cases h0 : trimSpace line = []
    · rw [runLoop_cons_empty w line rest st h0]
      exact ih st h hd
    · by_cases h1 : trimSpace line = str "exit" ∨ trimSpace line = str "quit"
      · rw [runLoop_cons_exit w line rest st h1]
        refine ⟨by simp [doSave, h], ?_⟩
        intro d hdd
        simp only [doSave] at hdd
        split at hdd
        · exact (Option.some.injEq _ _ ▸ hdd) ▸ h
        · exact hd d hdd
      · rw [runLoop_cons_turn w line rest st h0 h1]
        exact ih _ (stepTurn_reach w line st h) (stepTurn_disk w line st h hd)

lemma reach_newConversation (w : World) : Reachable (newConversation w) :=
  Reachable.init (w.unixOf 0) (w.rfcOf 0) (w.rfcOf 1)

/-- The structural invariant of reachable conversations: the message list is
the seeded system message followed by non-system messages only. -/
lemma reach_shape (c : Conversation) (h : Reachable c) :
    ∃ ts rest, c.Messages = Message.mk (str "system") systemPrompt ts :: rest ∧
      ∀ m ∈ rest, m.Role ≠ str "system" := by
  induction h with
  | init idTime created ts =>
    exact ⟨ts, [], by simp [Conversation.addMessage], by simp⟩
  | user c content ts _ ih =>
    obtain ⟨ts0, rest, hm, hr⟩ := ih
    refine ⟨ts0, rest ++ [Message.mk (str "user") content ts], ?_, ?_⟩
    · simp [Conversation.addMessage, hm]
    · intro m hmem
      rcases List.mem_append.mp hmem with hmem | hmem
      · exact hr m hmem
      · rw [List.mem_singleton] at hmem
        subst hmem
        simp only [ne_eq]
        intro hrole
        have : (str "user").length = (str "system").length := by rw [hrole]
        simp [str] at this
  | assistant c content ts _ ih =>
    obtain ⟨ts0, rest, hm, hr⟩ := ih
    refine ⟨ts0, rest ++ [Message.mk (str "assistant") content ts], ?_, ?_⟩
    · simp [Conversation.addMessage, hm]
    · intro m hmem
      rcases List.mem_append.mp hmem with hmem | hmem
      · exact hr m hmem
      · rw [List.mem_singleton] at hmem
        subst hmem
        simp only [ne_eq]
        intro hrole
        have : (str "assistant").length = (str "system").length := by rw [hrole]
        simp [str] at this

/-! ## Append-only evolution of the message list -/

lemma initialSegment_refl (a : List Message) : initialSegment a a := ⟨[], by simp⟩

lemma initialSegment_trans {a b c : List Message}
    (h1 : initialSegment a b) (h2 : initialSegment b c) : initialSegment a c := by
  obtain ⟨t1, rfl⟩ := h1
  obtain ⟨t2, rfl⟩ := h2
  exact ⟨t1 ++ t2, by simp⟩

lemma addMessage_messages (c : Conversation) (role content ts : Str) :
    (c.addMessage role content ts).Messages = c.Messages ++ [Message.mk role content ts] := rfl

lemma stepTurn_mono (w : World) (line : Str) (st : LoopState) :
    initialSegment st.conv.Messages (stepTurn w line st).conv.Messages := by
  unfold stepTurn
  by_cases htr : isTrigger (trimSpace line) = true
  · simp only [htr, if_true, doAppend, doSave]
    split
    · exact ⟨_, rfl⟩
    · next path heq =>
      refine ⟨[Message.mk (str "user") (trimSpace line) (w.rfcOf st.tick),
        Message.mk (str "assistant") (str "Generated image: " ++ path)
          (w.rfcOf (generateImage (w.imgAt st.imgIdx) w (st.tick + 1)).2)], ?_⟩
      simp [Conversation.addMessage]
  · rw [Bool.not_eq_true] at htr
    simp only [htr, Bool.false_eq_true, if_false, doAppend, doSave, callOpenAI_fst]
    split
    · exact ⟨_, rfl⟩
    · next resp heq =>
      refine ⟨[Message.mk (str "user") (trimSpace line) (w.rfcOf st.tick),
        Message.mk (str "assistant") resp (w.rfcOf (st.tick + 1))], ?_⟩
      simp [Conversation.addMessage]

lemma runLoop_mono (w : World) (lines : List Str) : ∀ (st : LoopState),
    initialSegment st.conv.Messages (runLoop w lines st).conv.Messages := by
  induction lines with
  | nil =>
    intro st
    simp only [runLoop, doSave]
    exact initialSegment_refl _
  | cons line rest ih =>
    intro st
    by_cases h0 : trimSpace line = []
    · rw [runLoop_cons_empty w line rest st h0]
      exact ih st
    · by_cases h1 : trimSpace line = str "exit" ∨ trimSpace line = str "quit"
      · rw [runLoop_cons_exit w line rest st h1]
        simp only [doSave]
        exact initialSegment_refl _
      · rw [runLoop_cons_turn w line rest st h0 h1]
        exact initialSegment_trans (stepTurn_mono w line st) (ih _)

/-! ## Outcome-directed equations for the gateways -/

lemma callOpenAI_err (gw : List ChatParam → Except Str (List Str)) (c : Conversation)
    (e : Str) (h : gw (buildCompletionContext c) = Except.error e) :
    callOpenAI gw c = (c, Except.error (CallError.transport e)) := by
  unfold callOpenAI
  simp only [h]

lemma callOpenAI_nil (gw : List ChatParam → Except Str (List Str)) (c : Conversation)
    (h : gw (buildCompletionContext c) = Except.ok []) :
    callOpenAI gw c = (c, Except.error CallError.noChoices) := by
  unfold callOpenAI
  simp only [h]

lemma callOpenAI_ok (gw : List ChatParam → Except Str (List Str)) (c : Conversation)
    (r : Str) (rs : List Str) (h : gw (buildCompletionContext c) = Except.ok (r :: rs)) :
    callOpenAI gw c = (c, Except.ok r) := by
  unfold callOpenAI
  simp only [h]

lemma generateImage_ok (step : ImgStep) (w : World) (tick : Nat)
    {d : Str} {ds : List Str} {bs : List Nat}
    (h1 : step.resp = Except.ok (d :: ds)) (h2 : step.dec = Except.ok bs)
    (h3 : step.write = Except.ok ()) :
    generateImage step w tick =
      (Except.ok (filepathJoin imagesDir (str "img_" ++ intToStr (w.unixOf tick) ++ str ".png")),
        tick + 1) := by
  unfold generateImage
  rw [h1, h2, h3]

/-! ## Turn characterizations under assumptions on the gateways -/

lemma stepTurn_comp_ok (w : World) (line : Str) (st : LoopState)
    (hnt : isTrigger (trimSpace line) = false)
    (hc : ∀ n ctx, ∃ r rs, w.compGw n ctx = Except.ok (r :: rs))
    (hs : ∀ n, w.saveAt n = true) :
    ∃ r, (stepTurn w line st).conv.Messages =
        st.conv.Messages ++ [Message.mk (str "user") (trimSpace line) (w.rfcOf st.tick),
          Message.mk (str "assistant") r (w.rfcOf (st.tick + 1))] ∧
      (stepTurn w line st).disk = some (stepTurn w line st).conv := by
  obtain ⟨r, rs, hr⟩ := hc st.compIdx (buildCompletionContext
    (st.conv.addMessage (str "user") (trimSpace line) (w.rfcOf st.tick)))
  unfold stepTurn
  simp only [hnt, Bool.false_eq_true, if_false, doAppend, doSave]
  rw [callOpenAI_ok _ _ _ _ hr]
  refine ⟨r, ?_, ?_⟩ <;> simp [Conversation.addMessage, hs]

lemma stepTurn_comp_fail (w : World) (line : Str) (st : LoopState)
    (hnt : isTrigger (trimSpace line) = false)
    (hfail : (∃ e, w.compGw st.compIdx (buildCompletionContext
        (st.conv.addMessage (str "user") (trimSpace line) (w.rfcOf st.tick))) = Except.error e) ∨
      w.compGw st.compIdx (buildCompletionContext
        (st.conv.addMessage (str "user") (trimSpace line) (w.rfcOf st.tick))) = Except.ok []) :
    (stepTurn w line st).conv.Messages =
      st.conv.Messages ++ [Message.mk (str "user") (trimSpace line) (w.rfcOf st.tick)] := by
  unfold stepTurn
  simp only [hnt, Bool.false_eq_true, if_false, doAppend, doSave]
  rcases hfail with ⟨e, he⟩ | he
  · rw [callOpenAI_err _ _ _ he]
    simp [Conversation.addMessage]
  · rw [callOpenAI_nil _ _ he]
    simp [Conversation.addMessage]

lemma stepTurn_img_ok (w : World) (line : Str) (st : LoopState)
    {d : Str} {ds : List Str} {bs : List Nat}
    (htr : isTrigger (trimSpace line) = true)
    (h1 : (w.imgAt st.imgIdx).resp = Except.ok (d :: ds))
    (h2 : (w.imgAt st.imgIdx).dec = Except.ok bs)
    (h3 : (w.imgAt st.imgIdx).write = Except.ok ()) :
    (stepTurn w line st).conv.Messages =
      st.conv.Messages ++ [Message.mk (str "user") (trimSpace line) (w.rfcOf st.tick),
        Message.mk (str "assistant")
          (str "Generated image: " ++ filepathJoin imagesDir
            (str "img_" ++ intToStr (w.unixOf (st.tick + 1)) ++ str ".png"))
          (w.rfcOf (st.tick + 2))] := by
  unfold stepTurn
  simp only [htr, if_true, doAppend, doSave]
  rw [generateImage_ok _ _ _ h1 h2 h3]
  simp [Conversation.addMessage]

lemma runLoop_alt (w : World)
    (hc : ∀ n ctx, ∃ r rs, w.compGw n ctx = Except.ok (r :: rs))
    (hs : ∀ n, w.saveAt n = true) (lines : List Str) : ∀ (st : LoopState),
    (∀ line ∈ lines, trimSpace line ≠ [] ∧
      ¬(trimSpace line = str "exit" ∨ trimSpace line = str "quit") ∧
      isTrigger (trimSpace line) = false) →
    ∃ d, (runLoop w lines st).conv.Messages = st.conv.Messages ++ d ∧
      AltTurns (lines.map trimSpace) d ∧
      (runLoop w lines st).disk = some (runLoop w lines st).conv := by
  induction lines with
  | nil =>
    intro st _
    refine ⟨[], by simp [runLoop, doSave], AltTurns.nil, ?_⟩
    simp [runLoop, doSave, hs]
  | cons line rest ih =>
    intro st hlines
    obtain ⟨h0, h1, h2⟩ := hlines line (List.mem_cons_self line rest)
    have hrest := fun l hl => hlines l (List.mem_cons_of_mem line hl)
    rw [runLoop_cons_turn w line rest st h0 h1]
    obtain ⟨r, hmsg, _⟩ := stepTurn_comp_ok w line st h2 hc hs
    obtain ⟨dd, hd, ha, hdk⟩ := ih (stepTurn w line st) hrest
    refine ⟨Message.mk (str "user") (trimSpace line) (w.rfcOf st.tick) ::
        Message.mk (str "assistant") r (w.rfcOf (st.tick + 1)) :: dd, ?_, ?_, hdk⟩
    · rw [hd, hmsg]
      simp
    · exact AltTurns.cons _ _ _ _ _ _ ha

/-! ## Blank input -/

lemma trimSpace_of_all_space (line : Str) (h : ∀ c ∈ line, isGoSpace c = true) :
    trimSpace line = [] := by
  unfold trimSpace
  have h1 : line.dropWhile isGoSpace = [] := List.dropWhile_eq_nil_iff.mpr h
  rw [h1]
  simp

/-! ## The completion-context filter -/

/-- The total role dispatch of `callOpenAI`'s `switch` on a message whose
role is one of the three produced by the program (the residual map used to
state the filter property). -/
def plainParam (m : Message) : ChatParam :=
  if m.Role = str "system" then ChatParam.system m.Content
  else if m.Role = str "user" then ChatParam.user m.Content
  else ChatParam.assistant m.Content

lemma buildContext_filter (msgs : List Message)
    (h : ∀ m ∈ msgs, m.Role = str "system" ∨ m.Role = str "user" ∨ m.Role = str "assistant") :
    msgs.filterMap toParam =
      (msgs.filter (fun m => !(decide (m.Role = str "user") && isTrigger m.Content))).map
        plainParam := by
  induction msgs with
  | nil => rfl
  | cons m ms ih =>
    have hm := h m (List.mem_cons_self m ms)
    have hms : ∀ x ∈ ms, x.Role = str "system" ∨ x.Role = str "user" ∨ x.Role = str "assistant" :=
      fun x hx => h x (List.mem_cons_of_mem m hx)
    rw [List.filterMap_cons, List.filter_cons]
    by_cases hex : m.Role = str "user" ∧ isTrigger m.Content = true
    · have htp : toParam m = none := by
        unfold toParam
        rw [if_pos hex]
      have hpred : (!(decide (m.Role = str "user") && isTrigger m.Content)) = false := by
        rw [decide_eq_true hex.1, hex.2]
        rfl
      rw [htp, hpred]
      simpa using ih hms
    · have htp : toParam m = some (plainParam m) := by
        rcases hm with hrole | hrole | hrole
        · have hpp : plainParam m = ChatParam.system m.Content := by
            unfold plainParam
            rw [if_pos hrole]
          unfold toParam
          rw [if_neg hex, if_pos hrole, hpp]
        · have hne : ¬(str "user" = str "system") := by decide
          have hpp : plainParam m = ChatParam.user m.Content := by
            unfold plainParam
            rw [hrole, if_neg hne, if_pos rfl]
          unfold toParam
          rw [if_neg hex, hrole, if_neg hne, if_pos rfl, hpp]
        · have hne1 : ¬(str "assistant" = str "system") := by decide
          have hne2 : ¬(str "assistant" = str "user") := by decide
          have hpp : plainParam m = ChatParam.assistant m.Content := by
            unfold plainParam
            rw [hrole, if_neg hne1, if_neg hne2]
          unfold toParam
          rw [if_neg hex, hrole, if_neg hne1, if_neg hne2, if_pos rfl, hpp]
      have hpred : (!(decide (m.Role = str "user") && isTrigger m.Content)) = true := by
        rcases hm with hrole | hrole | hrole
        · have : decide (m.Role = str "user") = false := by
            rw [hrole]
            decide
          rw [this]
          rfl
        · have hnt : isTrigger m.Content = false := by
            cases hq : isTrigger m.Content with
            | false => rfl
            | true => exact absurd ⟨hrole, hq⟩ hex
          rw [hnt]
          simp
        · have : decide (m.Role = str "user") = false := by
            rw [hrole]
            decide
          rw [this]
          rfl
      rw [htp, hpred]
      simp only [if_true]
      rw [List.map_cons, ih hms]

/-! ## Concrete worlds and data for witnesses and counterexamples -/

/-- A concrete world: the clock ticks, the completion gateway always answers
`"hi"`, the image gateway always succeeds, every save succeeds. -/
def demoWorld : World where
  unixOf := fun n => Int.ofNat n
  rfcOf := fun n => str "T" ++ intToStr (Int.ofNat n)
  compGw := fun _ _ => Except.ok [str "hi"]
  imgAt := fun _ => { resp := Except.ok [str "Zg=="], dec := Except.ok [102], write := Except.ok () }
  saveAt := fun _ => true

/-- A world whose completion gateway always fails with a transport error. -/
def failWorld : World :=
  { demoWorld with compGw := fun _ _ => Except.error (str "boom") }

/-- Sample conversation: trigger and non-trigger user messages around the
seeded system message. -/
def wConv1 : Conversation :=
  { ID := str "chat_1", CreatedAt := str "t",
    Messages := [Message.mk (str "system") systemPrompt (str "t0"),
                 Message.mk (str "user") (str "hello") (str "t1"),
                 Message.mk (str "assistant") (str "hi") (str "t2"),
                 Message.mk (str "user") (str "please VISUALISER this") (str "t3")] }

/-- A conversation whose message content holds an XML-invalid character
(NUL). -/
def badConv : Conversation :=
  { ID := str "x", CreatedAt := str "y",
    Messages := [Message.mk (str "user") ['\x00'] (str "t")] }

/-- A conversation with markup-reserved characters in the content. -/
def rtConv : Conversation :=
  { ID := str "chat_7", CreatedAt := str "2026-02-03T10:00:00Z",
    Messages := [Message.mk (str "system") systemPrompt (str "t0"),
                 Message.mk (str "user") (str "<a> & \"b\"") (str "t1")] }

/-- C2's claimed property, part one, as a scan over the event trace: between
any two consecutive appends a save is attempted (the flag records an append
with no save attempted yet). -/
def saveSeparated : Bool → List Event → Bool
  | _, [] => true
  | pending, Event.append _ :: rest => !pending && saveSeparated true rest
  | _, Event.saveAttempt _ :: rest => saveSeparated false rest
  | pending, Event.completionCall :: rest => saveSeparated pending rest
  | pending, Event.imageCall :: rest => saveSeparated pending rest

/-- C2's claimed property, part two: after an append, no gateway call happens
before a save attempt. -/
def savedBeforeGateway : Bool → List Event → Bool
  | _, [] => true
  | _, Event.append _ :: rest => savedBeforeGateway true rest
  | _, Event.saveAttempt _ :: rest => savedBeforeGateway false rest
  | pending, Event.completionCall :: rest => !pending && savedBeforeGateway pending rest
  | pending, Event.imageCall :: rest => !pending && savedBeforeGateway pending rest

/-! ## Claim theorems -/

/-- C1: the completion context is exactly the in-memory message list in
order, minus the `user`-role messages whose content case-insensitively
contains `"visualiser"`; `system`- and `assistant`-role messages always make
it into the context. -/
theorem claim1_completion_context (c : Conversation)
    (h : ∀ m ∈ c.Messages,
      m.Role = str "system" ∨ m.Role = str "user" ∨ m.Role = str "assistant") :
    buildCompletionContext c =
      (c.Messages.filter
        (fun m => !(decide (m.Role = str "user") && isTrigger m.Content))).map plainParam ∧
    ∀ m ∈ c.Messages, (m.Role = str "system" ∨ m.Role = str "assistant") →
      plainParam m ∈ buildCompletionContext c := by
  have heq : buildCompletionContext c =
      (c.Messages.filter
        (fun m => !(decide (m.Role = str "user") && isTrigger m.Content))).map plainParam :=
    buildContext_filter c.Messages h
  refine ⟨heq, ?_⟩
  intro m hm hrole
  rw [heq]
  apply List.mem_map_of_mem
  apply List.mem_filter.mpr
  refine ⟨hm, ?_⟩
  have hdec : decide (m.Role = str "user") = false := by
    rcases hrole with hrole | hrole <;> rw [hrole] <;> decide
  rw [hdec]
  rfl

/-- Witness for C1 on a concrete transcript holding a trigger message. -/
theorem claim1_witness :
    buildCompletionContext wConv1 =
      (wConv1.Messages.filter
        (fun m => !(decide (m.Role = str "user") && isTrigger m.Content))).map plainParam ∧
    ∀ m ∈ wConv1.Messages, (m.Role = str "system" ∨ m.Role = str "assistant") →
      plainParam m ∈ buildCompletionContext wConv1 :=
  claim1_completion_context wConv1 (by decide)

/-- C2 (counterexample): on an image-trigger turn the user append is followed
by the image-gateway call with no save attempt in between, and the next
append happens before any save: both parts of the claimed save discipline
are false on the trace of a concrete run. -/
theorem claim2_counterexample :
    saveSeparated false (runMain demoWorld [str "visualiser a cat"]).trace = false ∧
    savedBeforeGateway false (runMain demoWorld [str "visualiser a cat"]).trace = false := by
  constructor <;> decide

/-- C2 (amended): the event trace of every execution decomposes into per-turn
blocks followed by the final save: a non-trigger turn is
append(user) · save · completion-call [· append(assistant) · save on
success]; an image-trigger turn is append(user) · image-call with NO
intervening save, followed on success only by append(assistant) · save, and
on failure by nothing (no save at all in that turn). -/
theorem claim2_turn_blocks (w : World) (lines : List Str) :
    Blocks (runMain w lines).trace := by
  obtain ⟨d, hd, hb⟩ := runLoop_trace w lines (initState w)
  rw [runMain] at *
  rw [hd]
  simpa using hb

/-- C3 (counterexample): in the end-to-end scenario the image turn's
assistant content is not the bare image file path: it carries the prefix
`"Generated image: "` and in particular does not start with `images`. -/
theorem claim3_counterexample :
    ((runMain demoWorld [str "hello", str "visualiser a cat", str "exit"]).conv.Messages.map
      (fun m => m.Content)).getLast? =
        some (str "Generated image: " ++ filepathJoin imagesDir (str "img_5.png")) ∧
    strStarts (str "Generated image: " ++ filepathJoin imagesDir (str "img_5.png"))
      imagesDir = false := by
  constructor <;> decide

/-- C3 (amended): a successful image-generation turn appends an assistant
message whose content is `"Generated image: "` followed by the file path
`images/img_<unix-seconds>.png` (a path under the images directory with a
timestamp-derived filename), and the end-to-end scenario yields exactly the
five messages system, user("hello"), assistant("hi"),
user("visualiser a cat"), assistant("Generated image: " ++ path). -/
theorem claim3_image_turn (w : World) (line : Str) (st : LoopState)
    {d : Str} {ds : List Str} {bs : List Nat}
    (htr : isTrigger (trimSpace line) = true)
    (h1 : (w.imgAt st.imgIdx).resp = Except.ok (d :: ds))
    (h2 : (w.imgAt st.imgIdx).dec = Except.ok bs)
    (h3 : (w.imgAt st.imgIdx).write = Except.ok ()) :
    (stepTurn w line st).conv.Messages =
      st.conv.Messages ++ [Message.mk (str "user") (trimSpace line) (w.rfcOf st.tick),
        Message.mk (str "assistant")
          (str "Generated image: " ++ filepathJoin imagesDir
            (str "img_" ++ intToStr (w.unixOf (st.tick + 1)) ++ str ".png"))
          (w.rfcOf (st.tick + 2))] ∧
    (runMain demoWorld [str "hello", str "visualiser a cat", str "exit"]).conv.Messages.map
        (fun m => (m.Role, m.Content)) =
      [(str "system", systemPrompt), (str "user", str "hello"),
       (str "assistant", str "hi"), (str "user", str "visualiser a cat"),
       (str "assistant", str "Generated image: " ++ filepathJoin imagesDir (str "img_5.png"))] :=
  ⟨stepTurn_img_ok w line st htr h1 h2 h3, by decide⟩

/-- Witness for C3 at a concrete image-trigger turn from the initial state. -/
theorem claim3_witness :
    (stepTurn demoWorld (str "visualiser a cat") (initState demoWorld)).conv.Messages =
      (initState demoWorld).conv.Messages ++
        [Message.mk (str "user") (trimSpace (str "visualiser a cat"))
          (demoWorld.rfcOf (initState demoWorld).tick),
         Message.mk (str "assistant")
          (str "Generated image: " ++ filepathJoin imagesDir
            (str "img_" ++ intToStr (demoWorld.unixOf ((initState demoWorld).tick + 1)) ++
              str ".png"))
          (demoWorld.rfcOf ((initState demoWorld).tick + 2))] ∧
    (runMain demoWorld [str "hello", str "visualiser a cat", str "exit"]).conv.Messages.map
        (fun m => (m.Role, m.Content)) =
      [(str "system", systemPrompt), (str "user", str "hello"),
       (str "assistant", str "hi"), (str "user", str "visualiser a cat"),
       (str "assistant", str "Generated image: " ++ filepathJoin imagesDir (str "img_5.png"))] :=
  @claim3_image_turn demoWorld (str "visualiser a cat") (initState demoWorld)
    (str "Zg==") [] [102] (by decide) rfl rfl rfl

/-- C4: every reachable conversation has exactly one `system` message; it is
the first message, its content is the seeded prompt, and no later message is
`system`-tagged; every conversation the loop holds or persists is
reachable. -/
theorem claim4_single_system :
    (∀ c, Reachable c →
      c.Messages.countP (fun m => decide (m.Role = str "system")) = 1 ∧
      ∃ ts rest, c.Messages = Message.mk (str "system") systemPrompt ts :: rest ∧
        ∀ m ∈ rest, m.Role ≠ str "system") ∧
    (∀ (w : World) (lines : List Str), Reachable (runMain w lines).conv ∧
      ∀ dconv, (runMain w lines).disk = some dconv → Reachable dconv) := by
  constructor
  · intro c hc
    obtain ⟨ts, rest, hm, hr⟩ := reach_shape c hc
    refine ⟨?_, ts, rest, hm, hr⟩
    rw [hm]
    rw [List.countP_cons_of_pos]
    · have hz : rest.countP (fun m => decide (m.Role = str "system")) = 0 := by
        apply List.countP_eq_zero.mpr
        intro m hmem
        simp only [decide_eq_true_eq]
        exact hr m hmem
      rw [hz]
    · simp
  · intro w lines
    have h := runLoop_reach w lines (initState w) (reach_newConversation w)
      (fun dconv hd => absurd hd (by simp [initState]))
    exact ⟨h.1, h.2⟩

/-- Witness for C4 at a freshly created conversation. -/
theorem claim4_witness :
    ((Conversation.mk (str "chat_" ++ intToStr 0) (str "t0") []).addMessage
        (str "system") systemPrompt (str "t1")).Messages.countP
      (fun m => decide (m.Role = str "system")) = 1 ∧
    ∃ ts rest,
      ((Conversation.mk (str "chat_" ++ intToStr 0) (str "t0") []).addMessage
          (str "system") systemPrompt (str "t1")).Messages =
        Message.mk (str "system") systemPrompt ts :: rest ∧
      ∀ m ∈ rest, m.Role ≠ str "system" :=
  claim4_single_system.1 _ (Reachable.init 0 (str "t0") (str "t1"))

/-- C5: the message list is append-only: `addMessage` extends the list by
exactly one message at the end (existing entries untouched), and across any
turn and any whole run the previous message list is an initial segment of
the new one. -/
theorem claim5_append_only :
    (∀ (c : Conversation) (role content ts : Str),
      (c.addMessage role content ts).Messages = c.Messages ++ [Message.mk role content ts]) ∧
    (∀ (w : World) (line : Str) (st : LoopState),
      initialSegment st.conv.Messages (stepTurn w line st).conv.Messages) ∧
    (∀ (w : World) (lines : List Str) (st : LoopState),
      initialSegment st.conv.Messages (runLoop w lines st).conv.Messages) :=
  ⟨fun _ _ _ _ => rfl, stepTurn_mono, runLoop_mono⟩

/-- C6: for any inputs containing no trigger keyword, with all completion
calls succeeding and all saves succeeding, the persisted transcript after the
run is exactly the system message followed by one user/assistant pair per
turn, in turn order: `1 + 2 * N` messages. -/
theorem claim6_transcript_shape (w : World) (lines : List Str)
    (hlines : ∀ line ∈ lines, trimSpace line ≠ [] ∧
      ¬(trimSpace line = str "exit" ∨ trimSpace line = str "quit") ∧
      isTrigger (trimSpace line) = false)
    (hc : ∀ n ctx, ∃ r rs, w.compGw n ctx = Except.ok (r :: rs))
    (hs : ∀ n, w.saveAt n = true) :
    ∃ d, (runMain w lines).conv.Messages =
        Message.mk (str "system") systemPrompt (w.rfcOf 1) :: d ∧
      AltTurns (lines.map trimSpace) d ∧
      (runMain w lines).conv.Messages.length = 1 + 2 * lines.length ∧
      (runMain w lines).disk = some (runMain w lines).conv := by
  obtain ⟨d, hd, ha, hdk⟩ := runLoop_alt w hc hs lines (initState w) hlines
  have hinit : (initState w).conv.Messages =
      [Message.mk (str "system") systemPrompt (w.rfcOf 1)] := rfl
  rw [runMain] at *
  refine ⟨d, ?_, ha, ?_, hdk⟩
  · rw [hd, hinit]
    rfl
  · rw [hd, hinit]
    have hlen := ha.length_eq
    simp only [List.length_map] at hlen
    simp [hlen]
    omega

/-- Witness for C6 on two concrete non-trigger turns. -/
theorem claim6_witness :
    ∃ d, (runMain demoWorld [str "a", str "b"]).conv.Messages =
        Message.mk (str "system") systemPrompt (demoWorld.rfcOf 1) :: d ∧
      AltTurns ([str "a", str "b"].map trimSpace) d ∧
      (runMain demoWorld [str "a", str "b"]).conv.Messages.length =
        1 + 2 * ([str "a", str "b"] : List Str).length ∧
      (runMain demoWorld [str "a", str "b"]).disk =
        some (runMain demoWorld [str "a", str "b"]).conv :=
  claim6_transcript_shape demoWorld [str "a", str "b"] (by decide)
    (fun _ _ => ⟨str "hi", [], rfl⟩) (fun _ => rfl)

/-- C7 (counterexample): a conversation whose content holds an XML-invalid
character (NUL) serializes with U+FFFD in its place, so re-parsing does not
reproduce the original conversation. -/
theorem claim7_counterexample :
    parseConversation (renderConversation badConv) =
      some { ID := str "x", CreatedAt := str "y",
             Messages := [Message.mk (str "user") ['�'] (str "t")] } ∧
    ({ ID := str "x", CreatedAt := str "y",
       Messages := [Message.mk (str "user") ['�'] (str "t")] } : Conversation) ≠
      badConv := by
  constructor <;> decide

/-- C7 (amended): for every conversation all of whose characters lie in the
XML character range — markup-reserved characters included — serializing with
`save` and re-parsing reproduces exactly the original id, creation time and
message sequence. -/
theorem claim7_roundtrip (c : Conversation) (h : validConv c = true) :
    parseConversation (renderConversation c) = some c :=
  roundTrip c h

/-- Witness for C7 on a conversation whose content is `<a> & "b"`. -/
theorem claim7_witness :
    validConv rtConv = true ∧
    parseConversation (renderConversation rtConv) = some rtConv :=
  ⟨by decide, claim7_roundtrip rtConv (by decide)⟩

/-- C8: the zero-choices outcome is a failure distinct from a transport
error (different constructor and different surfaced text); on either
failure the loop proceeds to the next input line with only the user message
appended (no assistant message for that turn). -/
theorem claim8_error_handling :
    (∀ gw c e, gw (buildCompletionContext c) = Except.error e →
      (callOpenAI gw c).2 = Except.error (CallError.transport e)) ∧
    (∀ gw c, gw (buildCompletionContext c) = Except.ok [] →
      (callOpenAI gw c).2 = Except.error CallError.noChoices) ∧
    (∀ e, CallError.transport e ≠ CallError.noChoices ∧
      (CallError.transport e).message ≠ CallError.noChoices.message) ∧
    (∀ (w : World) (line : Str) (rest : List Str) (st : LoopState),
      trimSpace line ≠ [] →
      ¬(trimSpace line = str "exit" ∨ trimSpace line = str "quit") →
      isTrigger (trimSpace line) = false →
      ((∃ e, w.compGw st.compIdx (buildCompletionContext
          (st.conv.addMessage (str "user") (trimSpace line) (w.rfcOf st.tick))) =
            Except.error e) ∨
        w.compGw st.compIdx (buildCompletionContext
          (st.conv.addMessage (str "user") (trimSpace line) (w.rfcOf st.tick))) =
            Except.ok []) →
      runLoop w (line :: rest) st = runLoop w rest (stepTurn w line st) ∧
      (stepTurn w line st).conv.Messages =
        st.conv.Messages ++ [Message.mk (str "user") (trimSpace line) (w.rfcOf st.tick)]) := by
  refine ⟨?_, ?_, ?_, ?_⟩
  · intro gw c e h
    rw [callOpenAI_err gw c e h]
  · intro gw c h
    rw [callOpenAI_nil gw c h]
  · intro e
    refine ⟨by simp, ?_⟩
    intro hmsg
    have h1 : (CallError.transport e).message =
        'f' :: (str "ailed to create completion: " ++ e) := rfl
    have h2 : CallError.noChoices.message = 'n' :: str "o response from OpenAI" := rfl
    rw [h1, h2] at hmsg
    injection hmsg with hh _
    exact absurd hh (by decide)
  · intro w line rest st h0 h1 h2 hfail
    exact ⟨runLoop_cons_turn w line rest st h0 h1, stepTurn_comp_fail w line st h2 hfail⟩

/-- Witness for C8: a failing gateway on a concrete turn. -/
theorem claim8_witness :
    (callOpenAI (fun _ => Except.error (str "boom")) wConv1).2 =
      Except.error (CallError.transport (str "boom")) ∧
    (runLoop failWorld [str "a"] (initState failWorld) =
      runLoop failWorld [] (stepTurn failWorld (str "a") (initState failWorld)) ∧
    (stepTurn failWorld (str "a") (initState failWorld)).conv.Messages =
      (initState failWorld).conv.Messages ++
        [Message.mk (str "user") (trimSpace (str "a"))
          (failWorld.rfcOf (initState failWorld).tick)]) :=
  ⟨claim8_error_handling.1 _ wConv1 _ rfl,
   claim8_error_handling.2.2.2 failWorld (str "a") [] (initState failWorld)
     (by decide) (by decide) (by decide) (Or.inl ⟨str "boom", rfl⟩)⟩

/-- C9: an input line that is empty or all whitespace leaves the loop state —
conversation, disk, trace, oracles — exactly as it was: the loop simply
proceeds to the next line, appending nothing and attempting no save. -/
theorem claim9_blank_input (w : World) (line : Str) (rest : List Str) (st : LoopState)
    (h : ∀ ch ∈ line, isGoSpace ch = true) :
    runLoop w (line :: rest) st = runLoop w rest st :=
  runLoop_cons_empty w line rest st (trimSpace_of_all_space line h)

/-- Witness for C9 on a whitespace-only line. -/
theorem claim9_witness :
    runLoop demoWorld [str "  "] (initState demoWorld) =
      runLoop demoWorld [] (initState demoWorld) :=
  claim9_blank_input demoWorld (str "  ") [] (initState demoWorld) (by decide)

/-- C10: `callOpenAI` never mutates the conversation: whatever the gateway
outcome, the conversation it hands back — id, creation time and message
sequence — is the one it was given. -/
theorem claim10_call_frame (gw : List ChatParam → Except Str (List Str)) (c : Conversation) :
    (callOpenAI gw c).1 = c ∧ (callOpenAI gw c).1.ID = c.ID ∧
    (callOpenAI gw c).1.CreatedAt = c.CreatedAt ∧
    (callOpenAI gw c).1.Messages = c.Messages := by
  have h := callOpenAI_fst gw c
  exact ⟨h, by rw [h], by rw [h], by rw [h]⟩

end GoChat
